import Mathlib

/-!
Verification of the npc-node-persist persistence engine (src/index.js and its
duplicated second copy src/unnamed/part_000) against its specification.

The embedding models:
* the ECMAScript promise settle discipline (a promise records only the first
  resolve/reject call: the `alreadyResolved` flag), needed for `#lockDirectory`;
* the process-wide directory-lock registry (a JS object keyed by path),
  as an association list with JS property get/set/delete semantics;
* the engine operations `get/set/del/ttl/load/flush/close` of both copies,
  with the underlying store call they issue made explicit as a `StoreEffect`;
* the Bottleneck write queue (external dependency, modelled from the spec)
  as a transition system with a `maxConcurrent` bound.

Values are polymorphic in `V`; times are `Int` milliseconds for store data and
`Nat` milliseconds on the promise timeline.
-/

namespace NPC

/-! ### ECMAScript promise outcomes

`Outcome` is the eventual fate of a promise: still pending, fulfilled at time
`t`, or rejected at time `t` with an error message. -/

inductive Outcome (α : Type) where
  | pending
  | fulfilled (t : Nat) (a : α)
  | rejected (t : Nat) (e : String)
deriving DecidableEq

/-- One invocation of the executor's `resolve`/`reject` functions, tagged with
the time at which it is invoked.  `resolveThenable` is `resolve(p)` for a
promise `p` with eventual outcome `o`: the new promise adopts `o`. -/
inductive SettleCall (α : Type) where
  | resolveVal (a : α)
  | resolveThenable (o : Outcome α)
  | rejectErr (e : String)
deriving DecidableEq

/-- ECMAScript promise resolution: the calls are listed in invocation order and
only the first one counts (`[[AlreadyResolved]]`); `resolve` with a thenable
locks the promise to that thenable's outcome, settling no earlier than the
call itself. -/
def promiseOutcome {α : Type} : List (Nat × SettleCall α) → Outcome α
  | [] => .pending
  | (t, .resolveVal a) :: _ => .fulfilled t a
  | (_, .resolveThenable .pending) :: _ => .pending
  | (t, .resolveThenable (.fulfilled s a)) :: _ => .fulfilled (max t s) a
  | (t, .resolveThenable (.rejected s e)) :: _ => .rejected (max t s) e
  | (t, .rejectErr e) :: _ => .rejected t e

/-! ### The directory-lock registry

`NodePersist.#cacheDirectories` is a plain JS object mapping a directory path
to its live lock record; we track each record by a numeric identity. -/

abbrev Registry := List (String × Nat)

/-- Property read `#cacheDirectories[directory]`. -/
def registryGet : Registry → String → Option Nat
  | [], _ => none
  | p :: rest, dir => if p.1 == dir then some p.2 else registryGet rest dir

/-- Property write `#cacheDirectories[directory] = record`: replaces the
binding if the key is present, otherwise adds it. -/
def registrySet : Registry → String → Nat → Registry
  | [], dir, v => [(dir, v)]
  | p :: rest, dir, v =>
    if p.1 == dir then (dir, v) :: rest else p :: registrySet rest dir v

/-- Property removal `delete #cacheDirectories[directory]`. -/
def registryDelete (reg : Registry) (dir : String) : Registry :=
  reg.filter (fun p => p.1 != dir)

/-- `#unlockDirectory`: if a record exists, signal its release and delete it;
otherwise do nothing.  Always returns `true`. -/
def unlockDirectory (reg : Registry) (dir : String) : Registry × Bool :=
  match registryGet reg dir with
  | some _ => (registryDelete reg dir, true)
  | none => (reg, true)

/-- The registry keys carry at most one live record per path. -/
def NodupKeys (reg : Registry) : Prop := (reg.map Prod.fst).Nodup

instance (reg : Registry) : Decidable (NodupKeys reg) := by
  unfold NodupKeys; infer_instance

/-! ### `#lockDirectory` -/

/-- The rejection message built in `#lockDirectory` (source punctuation around
the directory name elided). -/
def lockErrMsg (dir : String) : String :=
  "Another NodePersist engine has already locked directory " ++ dir ++
    "; use prefix to allow multiple node-persist instances"

/-- The eventual outcome of the existing holder's `lock` promise: `unlock()`
resolves it at the time the holder releases; if the holder never releases it
stays pending. -/
def holderLockOutcome (releaseTime : Option Nat) : Outcome Unit :=
  match releaseTime with
  | none => .pending
  | some t => .fulfilled t ()

/-- The settle calls performed by the executor of the promise built in
`#lockDirectory`.  When the directory is held, `resolve(existing.lock)` runs
synchronously (time 0, first in invocation order) and the `setTimeout`
callback invokes `reject` at 500 ms, second in invocation order.  When it is
free, `resolve()` runs at once. -/
def lockDirectorySettleCalls (dir : String) (held : Bool) (releaseTime : Option Nat) :
    List (Nat × SettleCall Unit) :=
  if held then
    [(0, .resolveThenable (holderLockOutcome releaseTime)),
     (500, .rejectErr (lockErrMsg dir))]
  else
    [(0, .resolveVal ())]

/-- `#lockDirectory(directory)`: the promise above, then (on fulfilment) the
`.then` continuation registers a fresh record for the directory — after the
releasing holder's `#unlockDirectory` has already removed the old one — and
yields `true`.  `newId` is the identity of the fresh record. -/
def lockDirectory (dir : String) (newId : Nat) (reg : Registry)
    (releaseTime : Option Nat) : Outcome Bool × Registry :=
  let held := (registryGet reg dir).isSome
  match promiseOutcome (lockDirectorySettleCalls dir held releaseTime) with
  | .pending => (.pending, reg)
  | .fulfilled t _ =>
    (.fulfilled t true,
      if held then registrySet (unlockDirectory reg dir).1 dir newId
      else registrySet reg dir newId)
  | .rejected t e => (.rejected t e, reg)

/-! ### Store data and the engine operations

Both copies of the class route each underlying-store interaction through the
write queue; the interaction itself is recorded as a `StoreEffect`. -/

/-- The single underlying-store call a `set`/`del` issues: `updateItem(key,
val, { ttl })` or `removeItem(key)`.  The `ttl` field is the raw value the
code places in the options object. -/
inductive StoreEffect (V : Type) where
  | upsert (key : String) (val : V) (ttl : Option Int)
  | removeKey (key : String)
deriving DecidableEq

/-- `set(key, val, ttl)` of src/index.js: when `ttl` is not supplied it is
taken from `cache.getTtl(key)`; when that is truthy it is converted to the
remaining time `ttl - Date.now()`, and a negative remainder deletes the key
and returns `undefined`; otherwise `updateItem` runs and `val` is returned. -/
def indexSet {V : Type} (now : Int) (cacheGetTtl : Option Int) (key : String)
    (val : V) (ttlArg : Option Int) : StoreEffect V × Option V :=
  match ttlArg with
  | some t => (.upsert key val (some t), some val)
  | none =>
    match cacheGetTtl with
    | none => (.upsert key val none, some val)
    | some e =>
      if e == 0 then (.upsert key val (some 0), some val)
      else if e - now < 0 then (.removeKey key, none)
      else (.upsert key val (some (e - now)), some val)

/-- `set(key, val, ttl)` of src/unnamed/part_000: when `ttl` is not supplied
the raw `cache.getTtl(key)` value is passed to `updateItem` unchanged, and
`val` is always returned. -/
def part000Set {V : Type} (cacheGetTtl : Option Int) (key : String) (val : V)
    (ttlArg : Option Int) : StoreEffect V × Option V :=
  match ttlArg with
  | some t => (.upsert key val (some t), some val)
  | none => (.upsert key val cacheGetTtl, some val)

/-- `ttl(key, ttl)` of src/index.js: re-reads the value through the owning
cache; if absent nothing happens and `undefined` is returned, otherwise the
call is a full `set(key, val, ttl)` whose result is returned. -/
def indexTtl {V : Type} (now : Int) (cacheGetVal : Option V)
    (cacheGetTtl : Option Int) (key : String) (newTtl : Option Int) :
    Option (StoreEffect V) × Option V :=
  match cacheGetVal with
  | none => (none, none)
  | some v =>
    let r := indexSet now cacheGetTtl key v newTtl
    (some r.1, r.2)

/-- `ttl(key, ttl)` of src/unnamed/part_000: same gate on the cached value,
but the function body never returns the `set` result (it falls through,
returning `undefined`). -/
def part000Ttl {V : Type} (cacheGetVal : Option V) (cacheGetTtl : Option Int)
    (key : String) (newTtl : Option Int) : Option (StoreEffect V) × Option V :=
  match cacheGetVal with
  | none => (none, none)
  | some v => (some (part000Set cacheGetTtl key v newTtl).1, none)

/-! ### `load()` -/

/-- A datum as yielded by the underlying store's `forEach`: `ttl` holds the
stored absolute expiration timestamp in milliseconds, if any. -/
structure Datum (V : Type) where
  key : String
  value : V
  ttl : Option Int
deriving DecidableEq

/-- A datum as returned by `load()` of src/index.js. -/
structure LoadedDatum (V : Type) where
  key : String
  val : V
  ttl : Option Int
deriving DecidableEq

/-- A datum as returned by `load()` of src/unnamed/part_000, whose `ttl` may
have been divided by 1000 (JS number division, modelled exactly in `ℚ`). -/
structure LoadedDatumQ (V : Type) where
  key : String
  val : V
  ttl : Option ℚ
deriving DecidableEq

/-- Modelled from the spec: `tsToTtl` is inherited from the external
`npc-engine` base class, absent from src/; the spec states the returned TTL
is computed as `storedExpiresAt - now` (undefined stays undefined). -/
def tsToTtl (now : Int) : Option Int → Option Int
  | none => none
  | some ts => some (ts - now)

/-- The filter `!datum.ttl || Date.now() < datum.ttl` used by both copies of
`load()`: a datum is kept when its stored expiration is absent, zero
(falsy), or still in the future. -/
def keepDatum (now : Int) (ttl : Option Int) : Bool :=
  match ttl with
  | none => true
  | some e => e == 0 || decide (now < e)

/-- `load()` of src/index.js: keep the unexpired data, converting the stored
absolute expiration with `tsToTtl`. -/
def indexLoad {V : Type} (now : Int) (data : List (Datum V)) :
    List (LoadedDatum V) :=
  data.filterMap fun d =>
    if keepDatum now d.ttl then some ⟨d.key, d.value, tsToTtl now d.ttl⟩
    else none

/-- The `if (ttl) \x7b ttl /= 1000 \x7d` step of src/unnamed/part_000:
truthy values are divided by 1000, `undefined` and `0` pass unchanged. -/
def jsDiv1000 : Option Int → Option ℚ
  | none => none
  | some x => if x == 0 then some 0 else some ((x : ℚ) / 1000)

/-- `load()` of src/unnamed/part_000: same filter, but the converted TTL is
additionally divided by 1000 when truthy. -/
def part000Load {V : Type} (now : Int) (data : List (Datum V)) :
    List (LoadedDatumQ V) :=
  data.filterMap fun d =>
    if keepDatum now d.ttl then
      some ⟨d.key, d.value, jsDiv1000 (tsToTtl now d.ttl)⟩
    else none

/-! ### Constructor readiness and the public operations of src/index.js

The constructor chains `#lockDirectory(...).then(setup).catch(readyReject)`
onto the `#ready` promise; every public operation of src/index.js begins with
`await this.#ready`. -/

/-- The `#ready` promise's eventual outcome, as wired by the constructor:
fulfilment of the lock means the engine and limiter are created and
`readyResolve()` runs; any rejection is forwarded verbatim by
`.catch(readyReject)`. -/
def readyOutcome (lockOutcome : Outcome Bool) : Outcome Unit :=
  match lockOutcome with
  | .pending => .pending
  | .fulfilled t _ => .fulfilled t ()
  | .rejected t e => .rejected t e

/-- What a public `async` method does for its caller: return a value, reject
with an error, or never settle. -/
inductive OpResult (β : Type) where
  | ok (b : β)
  | err (e : String)
  | waiting
deriving DecidableEq

/-- Mutable engine-adjacent state touched by `flush`/`close`: the limiter's
stopped flag, the shared lock registry, and the underlying store contents. -/
structure EngineState (V : Type) where
  limiterStopped : Bool
  registry : Registry
  store : List (String × V)
deriving DecidableEq

/-- Modelled from the spec: `Bottleneck.stop(\x7b dropWaitingJobs: false \x7d)`
is an external dependency call; per the spec, `close()` "stops the write
queue, allowing already-queued work to finish ... but refusing new
submissions", and is idempotent — so stopping is modelled as setting a flag
and always succeeding. -/
def limiterStop {V : Type} (s : EngineState V) : EngineState V :=
  { s with limiterStopped := true }

/-- The body of `close()` of src/index.js after `#ready` fulfilled: stop the
limiter, release the directory, return `true`.  No store call is issued. -/
def indexClose {V : Type} (dir : String) (s : EngineState V) :
    EngineState V × Bool :=
  let s1 := limiterStop s
  let r := unlockDirectory s1.registry dir
  ({ s1 with registry := r.1 }, true)

/-- `close()` of src/unnamed/part_000: not `async`, no `#ready` wait and no
limiter interaction; it just releases the directory and returns `true`. -/
def part000Close {V : Type} (dir : String) (s : EngineState V) :
    EngineState V × Bool :=
  let r := unlockDirectory s.registry dir
  ({ s with registry := r.1 }, true)

/-- `get(key)`: await `#ready`, then read through the limiter. -/
def indexGetOp {V : Type} (ready : Outcome Unit) (store : String → Option V)
    (key : String) : OpResult (Option V) :=
  match ready with
  | .pending => .waiting
  | .rejected _ e => .err e
  | .fulfilled _ _ => .ok (store key)

/-- `set(key, val, ttl)`: await `#ready`, then the `indexSet` body. -/
def indexSetOp {V : Type} (ready : Outcome Unit) (now : Int)
    (cacheGetTtl : Option Int) (key : String) (val : V) (ttlArg : Option Int) :
    OpResult (StoreEffect V × Option V) :=
  match ready with
  | .pending => .waiting
  | .rejected _ e => .err e
  | .fulfilled _ _ => .ok (indexSet now cacheGetTtl key val ttlArg)

/-- `del(key)`: await `#ready`, then `removeItem(key)` through the limiter,
returning whatever the store reports removed. -/
def indexDelOp {V : Type} (ready : Outcome Unit) (removed : Option V)
    (key : String) : OpResult (StoreEffect V × Option V) :=
  match ready with
  | .pending => .waiting
  | .rejected _ e => .err e
  | .fulfilled _ _ => .ok (.removeKey key, removed)

/-- `ttl(key, ttl)`: await `#ready`, then the `indexTtl` body. -/
def indexTtlOp {V : Type} (ready : Outcome Unit) (now : Int)
    (cacheGetVal : Option V) (cacheGetTtl : Option Int) (key : String)
    (newTtl : Option Int) : OpResult (Option (StoreEffect V) × Option V) :=
  match ready with
  | .pending => .waiting
  | .rejected _ e => .err e
  | .fulfilled _ _ => .ok (indexTtl now cacheGetVal cacheGetTtl key newTtl)

/-- `load()`: await `#ready`, then init and iterate the store. -/
def indexLoadOp {V : Type} (ready : Outcome Unit) (now : Int)
    (data : List (Datum V)) : OpResult (List (LoadedDatum V)) :=
  match ready with
  | .pending => .waiting
  | .rejected _ e => .err e
  | .fulfilled _ _ => .ok (indexLoad now data)

/-- `flush()`: await `#ready`, then `clear()` through the limiter; always
reports `true`. -/
def indexFlushOp {V : Type} (ready : Outcome Unit) (s : EngineState V) :
    OpResult (EngineState V × Bool) :=
  match ready with
  | .pending => .waiting
  | .rejected _ e => .err e
  | .fulfilled _ _ => .ok ({ s with store := [] }, true)

/-- `close()` of src/index.js: await `#ready`, then the `indexClose` body. -/
def indexCloseOp {V : Type} (ready : Outcome Unit) (dir : String)
    (s : EngineState V) : OpResult (EngineState V × Bool) :=
  match ready with
  | .pending => .waiting
  | .rejected _ e => .err e
  | .fulfilled _ _ => .ok (indexClose dir s)

/-! ### The write queue

Modelled from the spec: the Bottleneck limiter is an external dependency;
src/index.js constructs it with `maxConcurrent: 1` and submits every store
call through `schedule`.  The spec describes it as a strict-FIFO queue that
starts a waiting job only while fewer than `maxConcurrent` jobs are running. -/

/-- A queue configuration: jobs still waiting in submission order, jobs
currently executing against the underlying store, and jobs finished in
completion order. -/
structure QState where
  pending : List Nat
  running : List Nat
  done : List Nat
deriving DecidableEq

/-- One scheduler transition: start the oldest waiting job when capacity
allows, or finish a running job. -/
inductive QStep (maxC : Nat) : QState → QState → Prop
  | start (j : Nat) (p r d : List Nat) (h : r.length < maxC) :
      QStep maxC ⟨j :: p, r, d⟩ ⟨p, r ++ [j], d⟩
  | finish (j : Nat) (p r d : List Nat) :
      QStep maxC ⟨p, j :: r, d⟩ ⟨p, r, d ++ [j]⟩

/-- Reachability under the scheduler. -/
def QReach (maxC : Nat) : QState → QState → Prop :=
  Relation.ReflTransGen (QStep maxC)

/-! ### Registry lemmas -/

theorem registryGet_set_self (reg : Registry) (dir : String) (v : Nat) :
    registryGet (registrySet reg dir v) dir = some v := by
  induction reg with
  | nil => simp [registrySet, registryGet]
  | cons p rest ih =>
    by_cases h : p.1 = dir
    · simp [registrySet, registryGet, h]
    · simp [registrySet, registryGet, h, ih]

theorem registryGet_delete_self (reg : Registry) (dir : String) :
    registryGet (registryDelete reg dir) dir = none := by
  induction reg with
  | nil => simp [registryDelete, registryGet]
  | cons p rest ih =>
    simp only [registryDelete, List.filter_cons] at ih ⊢
    by_cases h : p.1 = dir
    · simpa [h] using ih
    · simpa [registryGet, h] using ih

theorem registryDelete_of_get_none (reg : Registry) (dir : String)
    (h : registryGet reg dir = none) : registryDelete reg dir = reg := by
  induction reg with
  | nil => rfl
  | cons p rest ih =>
    simp only [registryGet] at h
    by_cases hp : p.1 = dir
    · simp [hp] at h
    · have h' : registryGet rest dir = none := by simpa [hp] using h
      have h2 := ih h'
      simp only [registryDelete, List.filter_cons] at h2 ⊢
      simp [hp, h2]

theorem mem_keys_registrySet (reg : Registry) (dir x : String) (v : Nat)
    (h : x ∈ (registrySet reg dir v).map Prod.fst) :
    x ∈ reg.map Prod.fst ∨ x = dir := by
  induction reg with
  | nil =>
    simp [registrySet] at h
    exact Or.inr h
  | cons p rest ih =>
    by_cases hp : p.1 = dir
    · simp only [registrySet, hp] at h
      simp at h
      rcases h with h | h
      · exact Or.inr h
      · exact Or.inl (by simp [h])
    · simp only [registrySet] at h
      rw [if_neg (by simpa using hp)] at h
      simp at h
      rcases h with h | h
      · exact Or.inl (by simp [h])
      · rcases ih (by simpa using h) with h2 | h2
        · exact Or.inl (by simp at h2 ⊢; exact Or.inr h2)
        · exact Or.inr h2

theorem nodupKeys_registrySet (reg : Registry) (dir : String) (v : Nat)
    (h : NodupKeys reg) : NodupKeys (registrySet reg dir v) := by
  induction reg with
  | nil => simp [NodupKeys, registrySet]
  | cons p rest ih =>
    simp only [NodupKeys, List.map_cons, List.nodup_cons] at h
    obtain ⟨hp1, hp2⟩ := h
    by_cases hd : p.1 = dir
    · simp only [registrySet, hd]
      simp only [NodupKeys, List.map_cons, List.nodup_cons]
      rw [if_pos (by simp)]
      simp only [List.map_cons, List.nodup_cons]
      exact ⟨by rw [← hd]; exact hp1, hp2⟩
    · simp only [registrySet]
      rw [if_neg (by simpa using hd)]
      simp only [NodupKeys, List.map_cons, List.nodup_cons]
      refine ⟨?_, ih hp2⟩
      intro hmem
      rcases mem_keys_registrySet rest dir p.1 v hmem with h2 | h2
      · exact hp1 h2
      · exact hd h2

theorem nodupKeys_registryDelete (reg : Registry) (dir : String)
    (h : NodupKeys reg) : NodupKeys (registryDelete reg dir) := by
  unfold NodupKeys at h ⊢
  unfold registryDelete
  exact h.sublist ((List.filter_sublist reg).map Prod.fst)

/-! ### `load()` lemmas -/

theorem indexLoad_singleton {V : Type} (now : Int) (d : Datum V) :
    indexLoad now [d] =
      if keepDatum now d.ttl then [⟨d.key, d.value, tsToTtl now d.ttl⟩]
      else [] := by
  by_cases h : keepDatum now d.ttl <;> simp [indexLoad, h]

theorem part000Load_singleton {V : Type} (now : Int) (d : Datum V) :
    part000Load now [d] =
      if keepDatum now d.ttl then
        [⟨d.key, d.value, jsDiv1000 (tsToTtl now d.ttl)⟩]
      else [] := by
  by_cases h : keepDatum now d.ttl <;> simp [part000Load, h]

theorem keepDatum_false_iff (now : Int) (t : Option Int) :
    keepDatum now t = false ↔ ∃ e, t = some e ∧ e ≠ 0 ∧ e ≤ now := by
  cases t with
  | none => simp [keepDatum]
  | some e =>
    simp only [keepDatum, Bool.or_eq_false_iff, beq_eq_false_iff_ne,
      decide_eq_false_iff_not, not_lt, Option.some.injEq]
    constructor
    · rintro ⟨h1, h2⟩
      exact ⟨e, rfl, h1, h2⟩
    · rintro ⟨x, rfl, h1, h2⟩
      exact ⟨h1, h2⟩

/-! ### Claim theorems -/

/-- Claim C1 (code bug): the spec — and `#lockDirectory`'s own doc comment,
"waits up to 500 ms for the other engine to release, then rejects" — say a
contended acquisition rejects with the "directory already locked" error once
the 500 ms timer fires, and stays failed even if the holder releases later.
The code instead calls `resolve(existing.lock)` synchronously in the promise
executor, so the ECMAScript `[[AlreadyResolved]]` flag makes the timer's
`reject` a no-op: at a concrete contended input, the acquisition succeeds
when the holder releases at 600 ms (after the bound), and stays pending
forever when the holder never releases — it never rejects. -/
theorem lockDirectory_contended_never_rejects :
    lockDirectory "d" 1 [("d", 0)] (some 600) =
      (.fulfilled 600 true, [("d", 1)]) ∧
    lockDirectory "d" 1 [("d", 0)] none = (.pending, [("d", 0)]) := by
  constructor <;> decide

/-- Claim C2: for a contended acquisition whose prior holder releases before
the 500 ms timer fires, the contender succeeds (its promise fulfils at the
release time) and registers its own fresh record for the path, replacing the
released one in the registry. -/
theorem lockDirectory_contended_release_takeover (dir : String) (newId : Nat)
    (reg : Registry) (t : Nat) (hheld : (registryGet reg dir).isSome = true)
    (_ht : t < 500) :
    lockDirectory dir newId reg (some t) =
      (.fulfilled t true, registrySet (registryDelete reg dir) dir newId) ∧
    registryGet (lockDirectory dir newId reg (some t)).2 dir = some newId := by
  obtain ⟨x, hx⟩ := Option.isSome_iff_exists.mp hheld
  have hmain : lockDirectory dir newId reg (some t) =
      (.fulfilled t true, registrySet (registryDelete reg dir) dir newId) := by
    unfold lockDirectory lockDirectorySettleCalls holderLockOutcome
      promiseOutcome unlockDirectory
    simp [hx]
  refine ⟨hmain, ?_⟩
  rw [hmain]
  exact registryGet_set_self (registryDelete reg dir) dir newId

/-- Witness for C2 at a concrete contended input: the holder releases at
100 ms and the contender takes over the registry record. -/
theorem lockDirectory_contended_release_takeover_witness :
    lockDirectory "d" 1 [("d", 0)] (some 100) =
      (.fulfilled 100 true, registrySet (registryDelete [("d", 0)] "d") "d" 1) ∧
    registryGet (lockDirectory "d" 1 [("d", 0)] (some 100)).2 "d" = some 1 :=
  lockDirectory_contended_release_takeover "d" 1 [("d", 0)] 100 (by decide)
    (by decide)

/-- Claim C3, counterexample: the claim says a visited datum is excluded
exactly when its stored absolute expiration is at or before the current
time.  A datum with stored expiration `0` (at or before `now = 1`) is
nevertheless retained, because the filter `!datum.ttl || Date.now() <
datum.ttl` treats the falsy value `0` as "no expiration". -/
theorem load_expiry_filter_counterexample :
    (0 : Int) ≤ 1 ∧
    indexLoad 1 [Datum.mk "k" (7 : Int) (some 0)] =
      [LoadedDatum.mk "k" 7 (some (-1))] := by
  constructor <;> decide

/-- Claim C3 as amended: a datum visited by `load()` is excluded exactly when
its stored absolute expiration is truthy (nonzero) and at or before the
current time; a retained datum with a nonzero future expiration comes back
with `ttl = storedExpiresAt - now` in src/index.js and with
`ttl = (storedExpiresAt - now) / 1000` in src/unnamed/part_000; a datum with
no stored expiration is retained with no `ttl`. -/
theorem load_expiry_filter_amended {V : Type} (now : Int) (d : Datum V) :
    (indexLoad now [d] = [] ↔ ∃ e, d.ttl = some e ∧ e ≠ 0 ∧ e ≤ now) ∧
    (part000Load now [d] = [] ↔ ∃ e, d.ttl = some e ∧ e ≠ 0 ∧ e ≤ now) ∧
    (∀ e, d.ttl = some e → e ≠ 0 → now < e →
      indexLoad now [d] = [⟨d.key, d.value, some (e - now)⟩] ∧
      part000Load now [d] =
        [⟨d.key, d.value, some (((e - now : Int) : ℚ) / 1000)⟩]) ∧
    (d.ttl = none →
      indexLoad now [d] = [⟨d.key, d.value, none⟩] ∧
      part000Load now [d] = [⟨d.key, d.value, none⟩]) := by
  refine ⟨?_, ?_, ?_, ?_⟩
  · rw [indexLoad_singleton, ← keepDatum_false_iff now d.ttl]
    by_cases h : keepDatum now d.ttl <;> simp [h]
  · rw [part000Load_singleton, ← keepDatum_false_iff now d.ttl]
    by_cases h : keepDatum now d.ttl <;> simp [h]
  · intro e he hne hfut
    have hkeep : keepDatum now d.ttl = true := by
      simp [keepDatum, he, hfut]
    have hts : tsToTtl now d.ttl = some (e - now) := by simp [tsToTtl, he]
    have hdiff : ¬(e - now = 0) := by omega
    constructor
    · rw [indexLoad_singleton, if_pos hkeep, hts]
    · rw [part000Load_singleton, if_pos hkeep, hts]
      simp only [jsDiv1000]
      rw [if_neg (by simpa using hdiff)]
  · intro he
    have hkeep : keepDatum now d.ttl = true := by simp [keepDatum, he]
    constructor
    · rw [indexLoad_singleton, if_pos hkeep, he]; rfl
    · rw [part000Load_singleton, if_pos hkeep, he]; rfl

/-- Witness for the amended C3 at a concrete retained datum: expiration 5,
current time 1. -/
theorem load_expiry_filter_amended_witness :
    indexLoad 1 [Datum.mk "k" (7 : Int) (some 5)] =
      [LoadedDatum.mk "k" 7 (some (5 - 1))] ∧
    part000Load 1 [Datum.mk "k" (7 : Int) (some 5)] =
      [LoadedDatumQ.mk "k" 7 (some ((((5 : Int) - 1 : Int) : ℚ) / 1000))] :=
  (load_expiry_filter_amended 1 (Datum.mk "k" (7 : Int) (some 5))).2.2.1 5 rfl
    (by decide) (by decide)

/-- Claim C4, counterexample: the claim says a `set(key, value)` with no
`ttl` uses the owning cache's configured absolute expiration for the upsert
and returns the stored value.  In src/index.js, when that expiration (50) is
truthy and earlier than the current time (100), no upsert happens: the key
is deleted and `undefined` is returned. -/
theorem set_defaultTtl_counterexample :
    indexSet 100 (some 50) "k" (7 : Int) none = (.removeKey "k", none) ∧
    (50 : Int) ≠ 0 ∧ (50 : Int) < 100 := by
  constructor <;> decide

/-- Claim C4 as amended: a `set(key, value)` with no `ttl` obtains the key's
configured absolute expiration from the owning cache; src/index.js converts
a truthy, not-yet-past expiration to the remaining time `expiration - now`
for the upsert and returns the stored value (a past one instead deletes the
key, see C10), an absent expiration is passed through as-is; the duplicate
copy src/unnamed/part_000 always upserts with the raw obtained value and
returns the stored value. -/
theorem set_defaultTtl_amended {V : Type} (now e : Int) (key : String) (v : V)
    (g : Option Int) (he : e ≠ 0) (hfut : now ≤ e) :
    indexSet now (some e) key v none =
      (.upsert key v (some (e - now)), some v) ∧
    indexSet now none key v none = (.upsert key v none, some v) ∧
    part000Set g key v none = (.upsert key v g, some v) := by
  refine ⟨?_, rfl, rfl⟩
  have h1 : ¬((e == 0) = true) := by simpa using he
  have h2 : ¬(e - now < 0) := by omega
  simp [indexSet, h1, h2]

/-- Witness for the amended C4: cache expiration 50, current time 10. -/
theorem set_defaultTtl_amended_witness :
    indexSet 10 (some 50) "k" (7 : Int) none =
      (.upsert "k" 7 (some 40), some 7) ∧
    indexSet 10 none "k" (7 : Int) none = (.upsert "k" 7 none, some 7) ∧
    part000Set (some 3) "k" (7 : Int) none =
      (.upsert "k" 7 (some 3), some 7) := by
  have h := set_defaultTtl_amended 10 50 "k" (7 : Int) (some 3) (by decide)
    (by decide)
  refine ⟨?_, h.2.1, h.2.2⟩
  rw [h.1]
  norm_num

/-- Claim C5: when the readiness promise is rejected with the
lock-acquisition error, every public operation of src/index.js — get, set,
del, ttl, load, flush, close — rejects with that same error, because each
begins with `await this.#ready` and the constructor forwards the rejection
via `.catch(readyReject)`. -/
theorem failed_lock_poisons_all_ops (t : Nat) (e : String)
    (store : String → Option Int) (key : String) (now : Int)
    (gt : Option Int) (v : Int) (ta : Option Int) (gv : Option Int)
    (nt : Option Int) (data : List (Datum Int)) (dir : String)
    (s : EngineState Int) :
    indexGetOp (readyOutcome (.rejected t e)) store key = .err e ∧
    indexSetOp (readyOutcome (.rejected t e)) now gt key v ta = .err e ∧
    indexDelOp (readyOutcome (.rejected t e)) (store key) key = .err e ∧
    indexTtlOp (readyOutcome (.rejected t e)) now gv gt key nt = .err e ∧
    indexLoadOp (readyOutcome (.rejected t e)) now data = .err e ∧
    indexFlushOp (readyOutcome (.rejected t e)) s = .err e ∧
    indexCloseOp (readyOutcome (.rejected t e)) dir s = .err e :=
  ⟨rfl, rfl, rfl, rfl, rfl, rfl, rfl⟩

/-- Claim C6: calling `close()` twice on one instance reports success both
times — unlocking a non-held path is a no-op — and neither call touches the
stored data, in either copy of the class. -/
theorem close_twice_succeeds_preserves_store {V : Type} (dir : String)
    (s : EngineState V) :
    (indexClose dir s).2 = true ∧
    (indexClose dir (indexClose dir s).1).2 = true ∧
    (indexClose dir s).1.store = s.store ∧
    (indexClose dir (indexClose dir s).1).1.store = s.store ∧
    (part000Close dir s).2 = true ∧
    (part000Close dir (part000Close dir s).1).2 = true ∧
    (part000Close dir s).1.store = s.store ∧
    (part000Close dir (part000Close dir s).1).1.store = s.store :=
  ⟨rfl, rfl, rfl, rfl, rfl, rfl, rfl, rfl⟩

/-- Claim C7: `ttl(key, newTtl)` re-reads the value through the owning
cache; when the cache reports the key absent no store call happens and
`undefined` is returned, otherwise the call is a full
`set(key, currentValue, newTtl)` — in both copies (src/index.js also
forwards the `set` result, part_000 does not). -/
theorem ttl_delegates_to_set {V : Type} (now : Int) (gv : Option V)
    (gt : Option Int) (key : String) (nt : Option Int) :
    (gv = none → indexTtl now gv gt key nt = (none, none) ∧
      part000Ttl gv gt key nt = (none, none)) ∧
    (∀ v, gv = some v →
      indexTtl now gv gt key nt =
        (some (indexSet now gt key v nt).1, (indexSet now gt key v nt).2) ∧
      part000Ttl gv gt key nt =
        (some (part000Set gt key v nt).1, none)) := by
  constructor
  · rintro rfl; exact ⟨rfl, rfl⟩
  · rintro v rfl; exact ⟨rfl, rfl⟩

/-- Witness for C7 at concrete inputs, covering the absent and present
cases. -/
theorem ttl_delegates_to_set_witness :
    (indexTtl 0 (none : Option Int) (some 9) "k" (some 5) = (none, none)) ∧
    indexTtl 0 (some (7 : Int)) (some 9) "k" (some 5) =
      (some (indexSet 0 (some 9) "k" (7 : Int) (some 5)).1,
        (indexSet 0 (some 9) "k" (7 : Int) (some 5)).2) :=
  ⟨((ttl_delegates_to_set 0 (none : Option Int) (some 9) "k" (some 5)).1
      rfl).1,
    ((ttl_delegates_to_set 0 (some (7 : Int)) (some 9) "k" (some 5)).2 7
      rfl).1⟩

/-- Claim C8: the lock registry keeps at most one live record per path —
registering a record preserves key uniqueness and makes the new holder
immediately visible, and releasing preserves it too — while releasing an
unheld path leaves the registry unchanged and always reports `true`. -/
theorem registry_unique_and_unlock_noop (reg : Registry) (dir : String)
    (v : Nat) :
    (NodupKeys reg → NodupKeys (registrySet reg dir v) ∧
      NodupKeys (unlockDirectory reg dir).1) ∧
    (registryGet reg dir = none → unlockDirectory reg dir = (reg, true)) ∧
    (unlockDirectory reg dir).2 = true ∧
    registryGet (registrySet reg dir v) dir = some v := by
  refine ⟨fun h => ⟨nodupKeys_registrySet reg dir v h, ?_⟩, fun h => ?_, ?_,
    registryGet_set_self reg dir v⟩
  · unfold unlockDirectory
    cases hg : registryGet reg dir
    · simpa using h
    · simpa using nodupKeys_registryDelete reg dir h
  · unfold unlockDirectory
    rw [h]
  · unfold unlockDirectory
    cases registryGet reg dir <;> rfl

/-- Witness for C8 at a concrete registry holding one other path. -/
theorem registry_unique_and_unlock_noop_witness :
    NodupKeys (registrySet [("a", 0)] "b" 1) ∧
    unlockDirectory [("a", 0)] "b" = ([("a", 0)], true) :=
  ⟨((registry_unique_and_unlock_noop [("a", 0)] "b" 1).1 (by decide)).1,
    (registry_unique_and_unlock_noop [("a", 0)] "b" 1).2.1 (by decide)⟩

/-- Claim C9: with the `maxConcurrent: 1` configuration src/index.js passes
to the write queue, every state reachable from a freshly submitted job list
has at most one job running against the underlying store, and the finished
jobs always form a prefix of the submission order — mutations apply in
program order, never concurrently. -/
theorem write_queue_fifo_single_flight (jobs : List Nat) (s : QState)
    (h : QReach 1 ⟨jobs, [], []⟩ s) :
    s.running.length ≤ 1 ∧ s.done ++ s.running ++ s.pending = jobs ∧
    ∃ rest, s.done ++ rest = jobs := by
  have h' : Relation.ReflTransGen (QStep 1) ⟨jobs, [], []⟩ s := h
  clear h
  have main : s.running.length ≤ 1 ∧
      s.done ++ (s.running ++ s.pending) = jobs := by
    induction h' with
    | refl => simp
    | tail hab hbc ih =>
      obtain ⟨h1, h2⟩ := ih
      cases hbc with
      | start j p r d hlt =>
        simp only at h1 h2 ⊢
        constructor
        · simp only [List.length_append, List.length_singleton]
          omega
        · rw [← h2]
          simp [List.append_assoc]
      | finish j p r d =>
        simp only at h1 h2 ⊢
        constructor
        · simp only [List.length_cons] at h1
          omega
        · rw [← h2]
          simp [List.append_assoc]
  refine ⟨main.1, by rw [List.append_assoc]; exact main.2,
    s.running ++ s.pending, main.2⟩

/-- Witness for C9: a concrete two-job trace (start 0, finish 0, start 1,
finish 1) reaching the fully drained state. -/
theorem write_queue_fifo_single_flight_witness :
    (QState.mk [] [] [0, 1]).running.length ≤ 1 ∧
    (QState.mk [] [] [0, 1]).done ++ (QState.mk [] [] [0, 1]).running ++
      (QState.mk [] [] [0, 1]).pending = [0, 1] ∧
    ∃ rest, (QState.mk [] [] [0, 1]).done ++ rest = [0, 1] := by
  have s1 : QStep 1 ⟨[0, 1], [], []⟩ ⟨[1], [0], []⟩ :=
    QStep.start 0 [1] [] [] (by decide)
  have s2 : QStep 1 ⟨[1], [0], []⟩ ⟨[1], [], [0]⟩ := QStep.finish 0 [1] [] []
  have s3 : QStep 1 ⟨[1], [], [0]⟩ ⟨[], [1], [0]⟩ :=
    QStep.start 1 [] [] [0] (by decide)
  have s4 : QStep 1 ⟨[], [1], [0]⟩ ⟨[], [], [0, 1]⟩ := QStep.finish 1 [] [] [0]
  exact write_queue_fifo_single_flight [0, 1] ⟨[], [], [0, 1]⟩
    (Relation.ReflTransGen.tail (Relation.ReflTransGen.tail
      (Relation.ReflTransGen.tail (Relation.ReflTransGen.single s1) s2) s3)
      s4)

/-- Claim C10: a `set(key, value)` with no `ttl` whose cache-reported
absolute expiration is truthy and earlier than the current time deletes the
key from the underlying store instead of storing, and returns `undefined`
(src/index.js). -/
theorem set_pastTtl_deletes {V : Type} (now e : Int) (key : String) (v : V)
    (he : e ≠ 0) (hpast : e < now) :
    indexSet now (some e) key v none = (.removeKey key, none) := by
  have h1 : ¬((e == 0) = true) := by simpa using he
  have h2 : e - now < 0 := by omega
  simp [indexSet, h1, h2]

/-- Witness for C10: expiration 3, current time 200. -/
theorem set_pastTtl_deletes_witness :
    indexSet 200 (some 3) "k" (7 : Int) none = (.removeKey "k", none) :=
  set_pastTtl_deletes 200 3 "k" (7 : Int) (by decide) (by decide)

end NPC
